import Mathlib

/-! Verification development for the magpylib triangular-mesh field solver
(`magpylib/_src/fields/field_BH_triangle.py`) and the `TriangularMesh`
object class (`magpylib/_src/obj_classes/class_magnet_TriangularMesh.py`).

The numerical code is embedded over the real numbers: each vectorized numpy
operation acts independently along the leading (row) axis, so the embedding
factors every batched array operation through a per-row function on real
3-vectors.  Mesh-topology code is embedded over lists with rational vertex
coordinates, so that every definition is executable. -/

namespace Magpylib

open Real

/-- Real 3-vector, the element type of every `(n,3)` numpy array row. -/
@[ext] structure Vec3 where
  x : ℝ
  y : ℝ
  z : ℝ

instance : Zero Vec3 := ⟨⟨0, 0, 0⟩⟩

instance : Add Vec3 := ⟨fun a b => ⟨a.x + b.x, a.y + b.y, a.z + b.z⟩⟩

instance : Sub Vec3 := ⟨fun a b => ⟨a.x - b.x, a.y - b.y, a.z - b.z⟩⟩

instance : Neg Vec3 := ⟨fun a => ⟨-a.x, -a.y, -a.z⟩⟩

instance : SMul ℝ Vec3 := ⟨fun c a => ⟨c * a.x, c * a.y, c * a.z⟩⟩

@[simp] lemma zero_x : (0 : Vec3).x = 0 := rfl

@[simp] lemma zero_y : (0 : Vec3).y = 0 := rfl

@[simp] lemma zero_z : (0 : Vec3).z = 0 := rfl

@[simp] lemma add_x (a b : Vec3) : (a + b).x = a.x + b.x := rfl

@[simp] lemma add_y (a b : Vec3) : (a + b).y = a.y + b.y := rfl

@[simp] lemma add_z (a b : Vec3) : (a + b).z = a.z + b.z := rfl

@[simp] lemma sub_x (a b : Vec3) : (a - b).x = a.x - b.x := rfl

@[simp] lemma sub_y (a b : Vec3) : (a - b).y = a.y - b.y := rfl

@[simp] lemma sub_z (a b : Vec3) : (a - b).z = a.z - b.z := rfl

@[simp] lemma neg_x (a : Vec3) : (-a).x = -a.x := rfl

@[simp] lemma neg_y (a : Vec3) : (-a).y = -a.y := rfl

@[simp] lemma neg_z (a : Vec3) : (-a).z = -a.z := rfl

@[simp] lemma smul_x (c : ℝ) (a : Vec3) : (c • a).x = c * a.x := rfl

@[simp] lemma smul_y (c : ℝ) (a : Vec3) : (c • a).y = c * a.y := rfl

@[simp] lemma smul_z (c : ℝ) (a : Vec3) : (c • a).z = c * a.z := rfl

@[simp] lemma mk_x (a b c : ℝ) : (Vec3.mk a b c).x = a := rfl

@[simp] lemma mk_y (a b c : ℝ) : (Vec3.mk a b c).y = b := rfl

@[simp] lemma mk_z (a b c : ℝ) : (Vec3.mk a b c).z = c := rfl

/-- Row-wise inner product, the per-row effect of
`np.einsum("ij, ij->i", a, b)`. -/
def dot3 (a b : Vec3) : ℝ := a.x * b.x + a.y * b.y + a.z * b.z

/-- Row-wise cross product, the per-row effect of `vcross3` in
`field_BH_triangle.py` (source lines 12-28). -/
def vcross3 (a b : Vec3) : Vec3 :=
  ⟨a.y * b.z - a.z * b.y, a.z * b.x - a.x * b.z, a.x * b.y - a.y * b.x⟩

/-- Euclidean norm of a row, the per-row effect of
`np.linalg.norm(-, axis=-1)` and of `np.sqrt(np.sum(R * R, axis=-1))`. -/
noncomputable def norm3 (a : Vec3) : ℝ := Real.sqrt (dot3 a a)

/-- Normalized plane normal of a triangle `(v0, v1, v2)`: per-row effect of
`norm_vector` in `field_BH_triangle.py` (source lines 31-39).  Division by a
zero norm (degenerate triangle) is total here (junk value `0`), standing for
the NaN the float code produces. -/
noncomputable def norm_vector (v0 v1 v2 : Vec3) : Vec3 :=
  (1 / norm3 (vcross3 (v1 - v0) (v2 - v0))) • vcross3 (v1 - v0) (v2 - v0)

/-- Real-number model of `np.arctan2` (signed zeroes do not exist in `ℝ`;
`np.arctan2 0 0 = 0` and `np.arctan2 (+0.0) x = π` for `x < 0`, matched by
the `0 ≤ y` branch). -/
noncomputable def arctan2 (y x : ℝ) : ℝ :=
  if 0 < x then arctan (y / x)
  else if x < 0 then
    (if 0 ≤ y then arctan (y / x) + π else arctan (y / x) - π)
  else
    (if 0 < y then π / 2 else if y < 0 then -(π / 2) else 0)

lemma arctan_nonneg {t : ℝ} (h : 0 ≤ t) : 0 ≤ arctan t := by
  have := Real.arctan_strictMono.monotone h
  simpa [Real.arctan_zero] using this

lemma arctan_nonpos {t : ℝ} (h : t ≤ 0) : arctan t ≤ 0 := by
  have := Real.arctan_strictMono.monotone h
  simpa [Real.arctan_zero] using this

lemma abs_arctan2_le_pi (y x : ℝ) : |arctan2 y x| ≤ π := by
  have hpi : 0 < π := Real.pi_pos
  have hlt := Real.arctan_lt_pi_div_two (y / x)
  have hgt := Real.neg_pi_div_two_lt_arctan (y / x)
  rw [abs_le]
  unfold arctan2
  split_ifs with h1 h2 h3 h4 h5
  · constructor <;> nlinarith
  · -- x < 0, 0 ≤ y : y / x ≤ 0 so arctan (y / x) + π ∈ (π/2, π]
    have hyx : y / x ≤ 0 := div_nonpos_of_nonneg_of_nonpos h3 h2.le
    have := arctan_nonpos hyx
    constructor <;> nlinarith
  · -- x < 0, y < 0 : y / x ≥ 0 so arctan (y / x) - π ∈ (-π, -π/2)
    have hyx : 0 ≤ y / x := by
      rw [← neg_div_neg_eq]
      exact div_nonneg (by linarith) (by linarith)
    have := arctan_nonneg hyx
    constructor <;> nlinarith
  · constructor <;> nlinarith
  · constructor <;> nlinarith
  · constructor <;> nlinarith

/-- Oddness of `arctan2` in its first argument, away from the branch cut
`{y = 0, x < 0}`. -/
lemma arctan2_neg_left {y x : ℝ} (h : ¬(y = 0 ∧ x < 0)) :
    arctan2 (-y) x = -arctan2 y x := by
  unfold arctan2
  rcases lt_trichotomy 0 x with hx | hx | hx
  · simp [hx, neg_div, Real.arctan_neg]
  · have hx' : ¬0 < x := by simp [← hx]
    have hx'' : ¬x < 0 := by simp [← hx]
    rcases lt_trichotomy 0 y with hy | hy | hy
    · simp [hx', hx'', hy, not_lt.mpr hy.le, neg_lt, hy]
    · simp [hx', hx'', ← hy]
    · simp [hx', hx'', hy, not_lt.mpr hy.le, neg_pos, hy, not_lt_of_gt hy]
  · have hy : y ≠ 0 := fun hy => h ⟨hy, hx⟩
    have hx' : ¬0 < x := by linarith
    rcases lt_trichotomy 0 y with hy' | hy' | hy'
    · have h1 : ¬(0 : ℝ) ≤ -y := by linarith
      simp only [hx', if_false, hx, if_true, h1, hy'.le, if_true]
      rw [neg_div, Real.arctan_neg]
      ring
    · exact absurd hy'.symm hy
    · have h1 : (0 : ℝ) ≤ -y := by linarith
      have h2 : ¬(0 : ℝ) ≤ y := by linarith
      simp only [hx', if_false, hx, if_true, h1, h2]
      rw [neg_div, Real.arctan_neg]
      ring

lemma arctan2_zero_of_pos {x : ℝ} (h : 0 < x) : arctan2 0 x = 0 := by
  simp [arctan2, h, Real.arctan_zero]

lemma arctan2_zero_of_neg {x : ℝ} (h : x < 0) : arctan2 0 x = π := by
  have h' : ¬0 < x := by linarith
  simp [arctan2, h, h', Real.arctan_zero]

lemma arctan2_zero_zero : arctan2 0 0 = 0 := by
  simp [arctan2]

/-- Per-row effect of `solid_angle` in `field_BH_triangle.py` (source lines
42-72): `N` and `D` as in the source, `result = 2 * arctan2 N D`, and the
clamp `np.where(abs(result) > 6.2831853, 0, result)`. -/
noncomputable def solidAngleRow (R0 R1 R2 : Vec3) (r0 r1 r2 : ℝ) : ℝ :=
  let N := dot3 R2 (vcross3 R1 R0)
  let D := r0 * r1 * r2 + dot3 R2 R1 * r0 + dot3 R2 R0 * r1 + dot3 R1 R0 * r2
  let result := 2 * arctan2 N D
  if |result| > 6.2831853 then 0 else result

/-- Batched `solid_angle` (source lines 42-72): `R` is the array of
vertex-to-observer vector batches and `r` the batch of their norms; every
numpy operation involved acts row-wise. -/
noncomputable def solid_angle {n : ℕ} (R : Fin 3 → Fin n → Vec3)
    (r : Fin 3 → Fin n → ℝ) : Fin n → ℝ :=
  fun i => solidAngleRow (R 0 i) (R 1 i) (R 2 i) (r 0 i) (r 1 i) (r 2 i)

/-- Unfolded form of `solidAngleRow`. -/
lemma solidAngleRow_def (R0 R1 R2 : Vec3) (r0 r1 r2 : ℝ) :
    solidAngleRow R0 R1 R2 r0 r1 r2 =
      if |2 * arctan2 (dot3 R2 (vcross3 R1 R0))
            (r0 * r1 * r2 + dot3 R2 R1 * r0 + dot3 R2 R0 * r1 + dot3 R1 R0 * r2)|
          > 6.2831853 then 0
      else 2 * arctan2 (dot3 R2 (vcross3 R1 R0))
            (r0 * r1 * r2 + dot3 R2 R1 * r0 + dot3 R2 R0 * r1 + dot3 R1 R0 * r2) :=
  rfl

lemma two_pi_gt_threshold : (6.2831853 : ℝ) < 2 * π := by
  have h := Real.pi_gt_d20
  norm_num at h ⊢
  linarith

lemma pi_lt_threshold : π < 6.2831853 := by
  have h := Real.pi_lt_d2
  norm_num at h ⊢
  linarith

/-- The clamped row solid angle is bounded in magnitude by `2 * π`. -/
lemma abs_solidAngleRow_le (R0 R1 R2 : Vec3) (r0 r1 r2 : ℝ) :
    |solidAngleRow R0 R1 R2 r0 r1 r2| ≤ 2 * π := by
  rw [solidAngleRow_def]
  split_ifs with h
  · simpa using Real.pi_pos.le
  · push_neg at h
    calc |2 * arctan2 _ _| ≤ 6.2831853 := h
    _ ≤ 2 * π := two_pi_gt_threshold.le

/-- Swapping the last two vertex batches negates the clamped solid angle.
The branch-cut case `N = 0 ∧ D < 0` (both orientations produce `2 * π`) is
absorbed by the clamp because `6.2831853 < 2 * π`. -/
lemma solidAngleRow_swap (R0 R1 R2 : Vec3) (r0 r1 r2 : ℝ) :
    solidAngleRow R0 R2 R1 r0 r2 r1 = -solidAngleRow R0 R1 R2 r0 r1 r2 := by
  have hN : dot3 R1 (vcross3 R2 R0) = -dot3 R2 (vcross3 R1 R0) := by
    simp only [dot3, vcross3, mk_x, mk_y, mk_z]
    ring
  have hD : r0 * r2 * r1 + dot3 R1 R2 * r0 + dot3 R1 R0 * r2 + dot3 R2 R0 * r1
      = r0 * r1 * r2 + dot3 R2 R1 * r0 + dot3 R2 R0 * r1 + dot3 R1 R0 * r2 := by
    simp only [dot3]
    ring
  rw [solidAngleRow_def, solidAngleRow_def, hN, hD]
  set N := dot3 R2 (vcross3 R1 R0) with hNdef
  set D := r0 * r1 * r2 + dot3 R2 R1 * r0 + dot3 R2 R0 * r1 + dot3 R1 R0 * r2 with hDdef
  by_cases hcut : N = 0 ∧ D < 0
  · obtain ⟨hN0, hD0⟩ := hcut
    have hval : arctan2 N D = π := by rw [hN0]; exact arctan2_zero_of_neg hD0
    have hval' : arctan2 (-N) D = π := by rw [hN0, neg_zero]; exact arctan2_zero_of_neg hD0
    have habs : |2 * π| > 6.2831853 := by
      rw [abs_of_pos (by positivity)]
      exact two_pi_gt_threshold
    rw [hval, hval']
    simp [habs]
  · rw [arctan2_neg_left hcut]
    rw [mul_neg, abs_neg]
    split_ifs with h
    · ring
    · ring

lemma dot3_self_nonneg (v : Vec3) : 0 ≤ dot3 v v := by
  unfold dot3
  have hx := mul_self_nonneg v.x
  have hy := mul_self_nonneg v.y
  have hz := mul_self_nonneg v.z
  linarith

lemma norm3_sq (v : Vec3) : norm3 v ^ 2 = dot3 v v :=
  Real.sq_sqrt (dot3_self_nonneg v)

lemma norm3_nonneg (v : Vec3) : 0 ≤ norm3 v := Real.sqrt_nonneg _

lemma norm3_neg (v : Vec3) : norm3 (-v) = norm3 v := by
  unfold norm3
  congr 1
  unfold dot3
  simp only [neg_x, neg_y, neg_z]
  ring

/-- Modelled from the spec: the vacuum permeability constant `MU0` imported
from `magpylib._src.utility` (module not under `src/`); the spec calls it a
fixed physical constant, and only positivity enters any claim. -/
noncomputable def MU0 : ℝ := 4 * π * 1e-7

lemma MU0_pos : 0 < MU0 := by
  unfold MU0
  positivity

/-- Modelled from the spec: the external input-validation collaborator
`check_field_input` (module not under `src/`) maps field kind `B` to the
boolean `bh = true`, `H` to `false`, and rejects anything else (`none`
stands for the raised exception). -/
def check_field_input (field : String) : Option Bool :=
  if field = "B" then some true else if field = "H" then some false else none

/-- Line-integral kernel `I` of one triangle edge from `P` to `Q` at observer
`obs`: the per-row, per-edge effect of source lines 158-186 (`b = R·L`,
`bl = b/l`, `ind = |r + bl|` and the two `np.where` branches).  Division by
zero is total in `ℝ` (junk value `0`), standing for the inf/NaN of floats. -/
noncomputable def edgeKernel (obs P Q : Vec3) : ℝ :=
  let R := P - obs
  let L := Q - P
  let r2 := dot3 R R
  let r := Real.sqrt r2
  let l2 := dot3 L L
  let l := Real.sqrt l2
  let b := dot3 R L
  let bl := b / l
  let ind := |r + bl|
  if ind > 1e-12 then
    1 / l * Real.log ((Real.sqrt (l2 + 2 * b + r2) + l + bl) / ind)
  else
    -(1 / l) * Real.log (|l - r| / r)

/-- Unfolded form of `edgeKernel`. -/
lemma edgeKernel_def (obs P Q : Vec3) :
    edgeKernel obs P Q =
      if |Real.sqrt (dot3 (P - obs) (P - obs))
            + dot3 (P - obs) (Q - P) / Real.sqrt (dot3 (Q - P) (Q - P))| > 1e-12 then
        1 / Real.sqrt (dot3 (Q - P) (Q - P)) *
          Real.log ((Real.sqrt (dot3 (Q - P) (Q - P) + 2 * dot3 (P - obs) (Q - P)
              + dot3 (P - obs) (P - obs))
            + Real.sqrt (dot3 (Q - P) (Q - P))
            + dot3 (P - obs) (Q - P) / Real.sqrt (dot3 (Q - P) (Q - P))) /
          |Real.sqrt (dot3 (P - obs) (P - obs))
            + dot3 (P - obs) (Q - P) / Real.sqrt (dot3 (Q - P) (Q - P))|)
      else
        -(1 / Real.sqrt (dot3 (Q - P) (Q - P))) *
          Real.log (|Real.sqrt (dot3 (Q - P) (Q - P))
              - Real.sqrt (dot3 (P - obs) (P - obs))|
            / Real.sqrt (dot3 (P - obs) (P - obs))) :=
  rfl

/-- Assembled (unscaled) per-row field `B = sigma * (n * solid_angle - n x PQR)`
of source line 188, with the source's intermediate arrays `n`, `sigma`, `R`,
`r`, `L`, `I`, `PQR` inlined; edges are `(v1-v0, v2-v1, v0-v2)` as in source
line 153. -/
noncomputable def assembledRow (obs v0 v1 v2 pol : Vec3) : Vec3 :=
  dot3 (norm_vector v0 v1 v2) pol •
    (solidAngleRow (v0 - obs) (v1 - obs) (v2 - obs)
        (norm3 (v0 - obs)) (norm3 (v1 - obs)) (norm3 (v2 - obs)) • norm_vector v0 v1 v2
      - vcross3 (norm_vector v0 v1 v2)
          (edgeKernel obs v0 v1 • (v1 - v0) + edgeKernel obs v1 v2 • (v2 - v1)
            + edgeKernel obs v2 v0 • (v0 - v2)))

/-- Per-row effect of `triangle_field` (source lines 142-195): the assembled
field scaled by `1/(4 pi)` for `B` (`bh = true`) and additionally divided by
`MU0` for `H` (`bh = false`). -/
noncomputable def triangleFieldRow (bh : Bool) (obs v0 v1 v2 pol : Vec3) : Vec3 :=
  if bh then (1 / (4 * π)) • assembledRow obs v0 v1 v2 pol
  else (1 / (4 * π * MU0)) • assembledRow obs v0 v1 v2 pol

/-- Batched `triangle_field` (source lines 76-195): co-indexed observer,
vertex-triple and polarization batches of leading dimension `n`; the output
also has leading dimension `n` with rows in `Vec3` (shape `(n,3)`).  The
`field` string is checked first; `none` stands for the exception raised on
an invalid field kind. -/
noncomputable def triangle_field {n : ℕ} (field : String)
    (observers : Fin n → Vec3) (vertices : Fin n → Vec3 × Vec3 × Vec3)
    (polarizations : Fin n → Vec3) : Option (Fin n → Vec3) :=
  (check_field_input field).map fun bh i =>
    triangleFieldRow bh (observers i) (vertices i).1 (vertices i).2.1
      (vertices i).2.2 (polarizations i)

/-- Claim C2: per row, `solid_angle` returns `2 * arctan2 N D` with
`N = R2 · (R1 × R0)` and
`D = r0 r1 r2 + r0 (R2·R1) + r1 (R2·R0) + r2 (R1·R0)`, except that a row
whose magnitude exceeds the threshold `6.2831853` is replaced by `0`; the
returned magnitude never exceeds `2 π`. -/
theorem claim_C2 {n : ℕ} (R : Fin 3 → Fin n → Vec3) (r : Fin 3 → Fin n → ℝ)
    (i : Fin n) :
    solid_angle R r i =
      (if |2 * arctan2 (dot3 (R 2 i) (vcross3 (R 1 i) (R 0 i)))
            (r 0 i * r 1 i * r 2 i + dot3 (R 2 i) (R 1 i) * r 0 i
              + dot3 (R 2 i) (R 0 i) * r 1 i + dot3 (R 1 i) (R 0 i) * r 2 i)|
          > 6.2831853 then 0
      else 2 * arctan2 (dot3 (R 2 i) (vcross3 (R 1 i) (R 0 i)))
            (r 0 i * r 1 i * r 2 i + dot3 (R 2 i) (R 1 i) * r 0 i
              + dot3 (R 2 i) (R 0 i) * r 1 i + dot3 (R 1 i) (R 0 i) * r 2 i)) ∧
    |solid_angle R r i| ≤ 2 * π :=
  ⟨solidAngleRow_def _ _ _ _ _ _, abs_solidAngleRow_le _ _ _ _ _ _⟩

/-- Claim C3: for each triangle edge and each row independently, the
line-integral kernel `I` equals `(1/l) * log((sqrt(l^2+2b+r^2)+l+b/l)/ind)`
when `ind = |r + b/l|` exceeds `1e-12` and `-(1/l) * log(|l-r|/r)` otherwise
(`b = R·L`); the branch selection is per element: the kernels and the field
row of index `i` depend only on row `i` of the input batches. -/
theorem claim_C3 (obs P Q : Vec3) {n : ℕ} (field : String)
    (o1 o2 : Fin n → Vec3) (v1 v2 : Fin n → Vec3 × Vec3 × Vec3)
    (p1 p2 : Fin n → Vec3) (i : Fin n) (B1 B2 : Fin n → Vec3)
    (ho : o1 i = o2 i) (hv : v1 i = v2 i) (hp : p1 i = p2 i)
    (hB1 : triangle_field field o1 v1 p1 = some B1)
    (hB2 : triangle_field field o2 v2 p2 = some B2) :
    edgeKernel obs P Q =
      (if |norm3 (P - obs) + dot3 (P - obs) (Q - P) / norm3 (Q - P)| > 1e-12 then
        1 / norm3 (Q - P) *
          Real.log ((Real.sqrt (norm3 (Q - P) ^ 2 + 2 * dot3 (P - obs) (Q - P)
              + norm3 (P - obs) ^ 2) + norm3 (Q - P)
              + dot3 (P - obs) (Q - P) / norm3 (Q - P))
            / |norm3 (P - obs) + dot3 (P - obs) (Q - P) / norm3 (Q - P)|)
      else
        -(1 / norm3 (Q - P)) *
          Real.log (|norm3 (Q - P) - norm3 (P - obs)| / norm3 (P - obs))) ∧
    B1 i = B2 i := by
  constructor
  · simp only [norm3_sq]
    exact edgeKernel_def obs P Q
  · unfold triangle_field at hB1 hB2
    cases hcf : check_field_input field with
    | none => rw [hcf] at hB1; simp at hB1
    | some bh =>
      rw [hcf] at hB1 hB2
      simp only [Option.map_some', Option.some.injEq] at hB1 hB2
      rw [← hB1, ← hB2]
      dsimp only
      rw [ho, hv, hp]

/-- Witness for claim C3 at a concrete edge and a concrete one-row batch. -/
theorem claim_C3_witness :
    (edgeKernel ⟨0, 0, 0⟩ ⟨1, 0, 0⟩ ⟨2, 0, 0⟩ =
      (if |norm3 (⟨1, 0, 0⟩ - ⟨0, 0, 0⟩)
            + dot3 (⟨1, 0, 0⟩ - ⟨0, 0, 0⟩) ((⟨2, 0, 0⟩ : Vec3) - ⟨1, 0, 0⟩)
              / norm3 ((⟨2, 0, 0⟩ : Vec3) - ⟨1, 0, 0⟩)| > 1e-12 then
        1 / norm3 ((⟨2, 0, 0⟩ : Vec3) - ⟨1, 0, 0⟩) *
          Real.log ((Real.sqrt (norm3 ((⟨2, 0, 0⟩ : Vec3) - ⟨1, 0, 0⟩) ^ 2
              + 2 * dot3 (⟨1, 0, 0⟩ - ⟨0, 0, 0⟩) ((⟨2, 0, 0⟩ : Vec3) - ⟨1, 0, 0⟩)
              + norm3 ((⟨1, 0, 0⟩ : Vec3) - ⟨0, 0, 0⟩) ^ 2)
              + norm3 ((⟨2, 0, 0⟩ : Vec3) - ⟨1, 0, 0⟩)
              + dot3 (⟨1, 0, 0⟩ - ⟨0, 0, 0⟩) ((⟨2, 0, 0⟩ : Vec3) - ⟨1, 0, 0⟩)
                / norm3 ((⟨2, 0, 0⟩ : Vec3) - ⟨1, 0, 0⟩))
            / |norm3 (⟨1, 0, 0⟩ - ⟨0, 0, 0⟩)
              + dot3 (⟨1, 0, 0⟩ - ⟨0, 0, 0⟩) ((⟨2, 0, 0⟩ : Vec3) - ⟨1, 0, 0⟩)
                / norm3 ((⟨2, 0, 0⟩ : Vec3) - ⟨1, 0, 0⟩)|)
      else
        -(1 / norm3 ((⟨2, 0, 0⟩ : Vec3) - ⟨1, 0, 0⟩)) *
          Real.log (|norm3 ((⟨2, 0, 0⟩ : Vec3) - ⟨1, 0, 0⟩)
              - norm3 (⟨1, 0, 0⟩ - ⟨0, 0, 0⟩)|
            / norm3 (⟨1, 0, 0⟩ - ⟨0, 0, 0⟩)))) ∧
    (fun _ : Fin 1 => triangleFieldRow true ⟨0, 0, 0⟩ ⟨0, 0, 1⟩ ⟨1, 0, 0⟩ ⟨0, 1, 0⟩
        ⟨1, 1, 1⟩) (0 : Fin 1) =
      (fun _ : Fin 1 => triangleFieldRow true ⟨0, 0, 0⟩ ⟨0, 0, 1⟩ ⟨1, 0, 0⟩ ⟨0, 1, 0⟩
        ⟨1, 1, 1⟩) (0 : Fin 1) :=
  claim_C3 ⟨0, 0, 0⟩ ⟨1, 0, 0⟩ ⟨2, 0, 0⟩ "B"
    (fun _ : Fin 1 => (⟨0, 0, 0⟩ : Vec3)) (fun _ : Fin 1 => (⟨0, 0, 0⟩ : Vec3))
    (fun _ => (⟨0, 0, 1⟩, ⟨1, 0, 0⟩, ⟨0, 1, 0⟩)) (fun _ => (⟨0, 0, 1⟩, ⟨1, 0, 0⟩, ⟨0, 1, 0⟩))
    (fun _ => ⟨1, 1, 1⟩) (fun _ => ⟨1, 1, 1⟩) 0 _ _ rfl rfl rfl rfl rfl

/-- Claim C5: `triangle_field` with field `B` returns the assembled per-row
field scaled by `1/(4 pi)`, with field `H` the same assembled field divided
by `4 pi` times the vacuum permeability constant; hence `H` output equals
`B` output divided by `MU0` pointwise.  The output is a total function on
`Fin n` into `Vec3` (shape `(n,3)`). -/
theorem claim_C5 {n : ℕ} (observers : Fin n → Vec3)
    (vertices : Fin n → Vec3 × Vec3 × Vec3) (polarizations : Fin n → Vec3) :
    triangle_field "B" observers vertices polarizations =
      some (fun i => (1 / (4 * π)) • assembledRow (observers i) (vertices i).1
        (vertices i).2.1 (vertices i).2.2 (polarizations i)) ∧
    triangle_field "H" observers vertices polarizations =
      some (fun i => (1 / (4 * π * MU0)) • assembledRow (observers i) (vertices i).1
        (vertices i).2.1 (vertices i).2.2 (polarizations i)) ∧
    triangle_field "H" observers vertices polarizations =
      (triangle_field "B" observers vertices polarizations).map
        (fun B i => (1 / MU0) • B i) := by
  refine ⟨rfl, rfl, ?_⟩
  show some _ = some _
  congr 1
  funext i
  show (1 / (4 * π * MU0)) • _ = (1 / MU0) • (1 / (4 * π)) • _
  ext <;> simp only [smul_x, smul_y, smul_z] <;> ring

/-- Claim C10: `triangle_field` is row-wise linear in the polarization
argument, both at the per-row level (any field kind, no hypotheses) and at
the batch level. -/
theorem claim_C10 (bh : Bool) (obs v0 v1 v2 p q : Vec3) (a b : ℝ)
    {n : ℕ} (field : String) (o : Fin n → Vec3) (v : Fin n → Vec3 × Vec3 × Vec3)
    (pp qq : Fin n → Vec3) (B1 B2 B3 : Fin n → Vec3)
    (h1 : triangle_field field o v pp = some B1)
    (h2 : triangle_field field o v qq = some B2)
    (h3 : triangle_field field o v (fun i => a • pp i + b • qq i) = some B3)
    (i : Fin n) :
    triangleFieldRow bh obs v0 v1 v2 (a • p + b • q)
      = a • triangleFieldRow bh obs v0 v1 v2 p + b • triangleFieldRow bh obs v0 v1 v2 q ∧
    B3 i = a • B1 i + b • B2 i := by
  have hrow : ∀ (bh' : Bool) (obs' w0 w1 w2 p' q' : Vec3),
      triangleFieldRow bh' obs' w0 w1 w2 (a • p' + b • q')
        = a • triangleFieldRow bh' obs' w0 w1 w2 p'
          + b • triangleFieldRow bh' obs' w0 w1 w2 q' := by
    intro bh' obs' w0 w1 w2 p' q'
    unfold triangleFieldRow assembledRow
    have hdot : dot3 (norm_vector w0 w1 w2) (a • p' + b • q')
        = a * dot3 (norm_vector w0 w1 w2) p' + b * dot3 (norm_vector w0 w1 w2) q' := by
      unfold dot3
      simp only [add_x, add_y, add_z, smul_x, smul_y, smul_z]
      ring
    cases bh' <;>
      · simp only [if_true, if_false, Bool.false_eq_true, hdot]
        ext <;> simp <;> ring
  refine ⟨hrow bh obs v0 v1 v2 p q, ?_⟩
  unfold triangle_field at h1 h2 h3
  cases hcf : check_field_input field with
  | none => rw [hcf] at h1; simp at h1
  | some bh' =>
    rw [hcf] at h1 h2 h3
    simp only [Option.map_some', Option.some.injEq] at h1 h2 h3
    rw [← h1, ← h2, ← h3]
    exact hrow bh' (o i) (v i).1 (v i).2.1 (v i).2.2 (pp i) (qq i)

/-- Variant of `edgeKernel_def` phrased through `norm3`. -/
lemma edgeKernel_def2 (obs P Q : Vec3) :
    edgeKernel obs P Q =
      if |norm3 (P - obs) + dot3 (P - obs) (Q - P) / norm3 (Q - P)| > 1e-12 then
        1 / norm3 (Q - P) *
          Real.log ((Real.sqrt (dot3 (Q - P) (Q - P) + 2 * dot3 (P - obs) (Q - P)
              + dot3 (P - obs) (P - obs))
            + norm3 (Q - P) + dot3 (P - obs) (Q - P) / norm3 (Q - P)) /
          |norm3 (P - obs) + dot3 (P - obs) (Q - P) / norm3 (Q - P)|)
      else
        -(1 / norm3 (Q - P)) *
          Real.log (|norm3 (Q - P) - norm3 (P - obs)| / norm3 (P - obs)) :=
  rfl

/-- On the primary branch (`ind` above threshold and positive), the kernel
evaluates to `(1/l) log((rQ + l + b/l) / (rP + b/l))`: the square root
`sqrt(l2 + 2b + r2)` is the distance from the observer to the edge head `Q`. -/
lemma edgeKernel_eval (obs P Q : Vec3)
    (hind : 1e-12 < norm3 (P - obs) + dot3 (P - obs) (Q - P) / norm3 (Q - P)) :
    edgeKernel obs P Q =
      1 / norm3 (Q - P) *
        Real.log ((norm3 (Q - obs) + norm3 (Q - P) + dot3 (P - obs) (Q - P) / norm3 (Q - P))
          / (norm3 (P - obs) + dot3 (P - obs) (Q - P) / norm3 (Q - P))) := by
  have hpos : (0 : ℝ) < norm3 (P - obs) + dot3 (P - obs) (Q - P) / norm3 (Q - P) :=
    lt_trans (by norm_num) hind
  have habs : |norm3 (P - obs) + dot3 (P - obs) (Q - P) / norm3 (Q - P)|
      = norm3 (P - obs) + dot3 (P - obs) (Q - P) / norm3 (Q - P) := abs_of_pos hpos
  have harg : dot3 (Q - P) (Q - P) + 2 * dot3 (P - obs) (Q - P) + dot3 (P - obs) (P - obs)
      = dot3 (Q - obs) (Q - obs) := by
    unfold dot3
    simp only [sub_x, sub_y, sub_z]
    ring
  rw [edgeKernel_def2, habs, if_pos hind, harg]
  rfl

/-- Cross-multiplied identity behind orientation independence of the edge
kernel: `rP^2 - (b/l)^2 = rQ^2 - (l + b/l)^2` whenever `rQ^2 = rP^2 + 2b + l^2`. -/
lemma ratio_eq (l rP rQ b : ℝ) (hl : 0 < l)
    (hsq : rQ * rQ = rP * rP + 2 * b + l * l)
    (h1 : 0 < rP + b / l) (h2 : 0 < rQ - l - b / l) :
    (rQ + l + b / l) / (rP + b / l) = (rP - b / l) / (rQ - l - b / l) := by
  have hlne : l ≠ 0 := ne_of_gt hl
  rw [div_eq_div_iff h1.ne' h2.ne']
  field_simp
  nlinarith [hsq, sq_nonneg l]

/-- Reversing the direction of an edge does not change its kernel, provided
both directions select the primary branch with positive logarithm inputs. -/
lemma edgeKernel_rev (obs P Q : Vec3)
    (hl : 0 < norm3 (Q - P))
    (h1 : 1e-12 < norm3 (P - obs) + dot3 (P - obs) (Q - P) / norm3 (Q - P))
    (h2 : 1e-12 < norm3 (Q - obs) - norm3 (Q - P) - dot3 (P - obs) (Q - P) / norm3 (Q - P)) :
    edgeKernel obs Q P = edgeKernel obs P Q := by
  have hlsw : norm3 (P - Q) = norm3 (Q - P) := by
    unfold norm3
    congr 1
    unfold dot3
    simp only [sub_x, sub_y, sub_z]
    ring
  have hlne : norm3 (Q - P) ≠ 0 := ne_of_gt hl
  have hl2 : norm3 (Q - P) * norm3 (Q - P) = dot3 (Q - P) (Q - P) :=
    Real.mul_self_sqrt (dot3_self_nonneg _)
  have hrP2 : norm3 (P - obs) * norm3 (P - obs) = dot3 (P - obs) (P - obs) :=
    Real.mul_self_sqrt (dot3_self_nonneg _)
  have hrQ2 : norm3 (Q - obs) * norm3 (Q - obs) = dot3 (Q - obs) (Q - obs) :=
    Real.mul_self_sqrt (dot3_self_nonneg _)
  have hdotQ : dot3 (Q - obs) (Q - obs)
      = dot3 (P - obs) (P - obs) + 2 * dot3 (P - obs) (Q - P) + dot3 (Q - P) (Q - P) := by
    unfold dot3
    simp only [sub_x, sub_y, sub_z]
    ring
  have hb' : dot3 (Q - obs) (P - Q)
      = -(dot3 (P - obs) (Q - P)) - dot3 (Q - P) (Q - P) := by
    unfold dot3
    simp only [sub_x, sub_y, sub_z]
    ring
  have hbl' : dot3 (Q - obs) (P - Q) / norm3 (P - Q)
      = -(dot3 (P - obs) (Q - P) / norm3 (Q - P)) - norm3 (Q - P) := by
    rw [hb', hlsw, ← hl2]
    field_simp
  have hindrev : 1e-12 < norm3 (Q - obs) + dot3 (Q - obs) (P - Q) / norm3 (P - Q) := by
    rw [hbl']
    linarith
  rw [edgeKernel_eval obs Q P hindrev, edgeKernel_eval obs P Q h1, hbl', hlsw]
  have e1 : norm3 (P - obs) + norm3 (Q - P)
      + (-(dot3 (P - obs) (Q - P) / norm3 (Q - P)) - norm3 (Q - P))
      = norm3 (P - obs) - dot3 (P - obs) (Q - P) / norm3 (Q - P) := by ring
  have e2 : norm3 (Q - obs)
      + (-(dot3 (P - obs) (Q - P) / norm3 (Q - P)) - norm3 (Q - P))
      = norm3 (Q - obs) - norm3 (Q - P) - dot3 (P - obs) (Q - P) / norm3 (Q - P) := by ring
  rw [e1, e2]
  congr 1
  have hsq : norm3 (Q - obs) * norm3 (Q - obs)
      = norm3 (P - obs) * norm3 (P - obs) + 2 * dot3 (P - obs) (Q - P)
        + norm3 (Q - P) * norm3 (Q - P) := by
    rw [hrQ2, hrP2, hl2]
    exact hdotQ
  exact congrArg Real.log (ratio_eq (norm3 (Q - P)) (norm3 (P - obs)) (norm3 (Q - obs))
    (dot3 (P - obs) (Q - P)) hl hsq (lt_trans (by norm_num) h1)
    (lt_trans (by norm_num) h2)).symm

/-- Swapping the last two vertices negates the unit normal exactly (also in
the degenerate junk case, where both sides are zero). -/
lemma norm_vector_swap (v0 v1 v2 : Vec3) :
    norm_vector v0 v2 v1 = -norm_vector v0 v1 v2 := by
  unfold norm_vector
  have hc : vcross3 (v2 - v0) (v1 - v0) = -vcross3 (v1 - v0) (v2 - v0) := by
    unfold vcross3
    ext <;> simp only [sub_x, sub_y, sub_z, neg_x, neg_y, neg_z, mk_x, mk_y, mk_z] <;> ring
  rw [hc, norm3_neg]
  ext <;> simp only [smul_x, smul_y, smul_z, neg_x, neg_y, neg_z] <;> ring

/-- Genericity condition on one directed triangle edge from `P` to `Q` seen
from observer `obs`: both edge directions select the primary kernel branch
with a positive closeness measure (the observer is away from the edge line,
so the row is free of the inf/NaN float degeneracies). -/
def EdgeOK (obs P Q : Vec3) : Prop :=
  0 < norm3 (Q - P) ∧
  1e-12 < norm3 (P - obs) + dot3 (P - obs) (Q - P) / norm3 (Q - P) ∧
  1e-12 < norm3 (Q - obs) - norm3 (Q - P) - dot3 (P - obs) (Q - P) / norm3 (Q - P)

/-- Claim C9: reversing a triangle's winding negates its field contribution:
with observers and polarizations fixed and every edge in the generic (finite)
regime, `triangle_field` on `(v0, v2, v1)` is exactly the negation of
`triangle_field` on `(v0, v1, v2)`, for either field kind. -/
theorem claim_C9 (bh : Bool) (obs v0 v1 v2 pol : Vec3)
    (h01 : EdgeOK obs v0 v1) (h12 : EdgeOK obs v1 v2) (h20 : EdgeOK obs v2 v0) :
    triangleFieldRow bh obs v0 v2 v1 pol = -triangleFieldRow bh obs v0 v1 v2 pol := by
  obtain ⟨ha1, ha2, ha3⟩ := h01
  obtain ⟨hb1, hb2, hb3⟩ := h12
  obtain ⟨hc1, hc2, hc3⟩ := h20
  have hk1 : edgeKernel obs v0 v2 = edgeKernel obs v2 v0 :=
    edgeKernel_rev obs v2 v0 hc1 hc2 hc3
  have hk2 : edgeKernel obs v2 v1 = edgeKernel obs v1 v2 :=
    edgeKernel_rev obs v1 v2 hb1 hb2 hb3
  have hk3 : edgeKernel obs v1 v0 = edgeKernel obs v0 v1 :=
    edgeKernel_rev obs v0 v1 ha1 ha2 ha3
  have hroweq : assembledRow obs v0 v2 v1 pol = -assembledRow obs v0 v1 v2 pol := by
    unfold assembledRow
    rw [norm_vector_swap, solidAngleRow_swap, hk1, hk2, hk3]
    ext <;>
      simp only [dot3, vcross3, smul_x, smul_y, smul_z, add_x, add_y, add_z,
        sub_x, sub_y, sub_z, neg_x, neg_y, neg_z, mk_x, mk_y, mk_z] <;>
      ring
  unfold triangleFieldRow
  cases bh <;>
    · simp only [if_true, if_false, Bool.false_eq_true, hroweq]
      ext <;> simp only [smul_x, smul_y, smul_z, neg_x, neg_y, neg_z] <;> ring

/-- Witness for claim C9: the triangle `(-1,0,0), (1,0,0), (0,1,0)` seen
from the in-plane outside observer `(0,-1,0)` satisfies all edge-genericity
hypotheses. -/
theorem claim_C9_witness :
    triangleFieldRow true ⟨0, -1, 0⟩ ⟨-1, 0, 0⟩ ⟨0, 1, 0⟩ ⟨1, 0, 0⟩ ⟨0, 0, 1⟩
      = -triangleFieldRow true ⟨0, -1, 0⟩ ⟨-1, 0, 0⟩ ⟨1, 0, 0⟩ ⟨0, 1, 0⟩ ⟨0, 0, 1⟩ := by
  have h4eq : Real.sqrt 4 = 2 := by
    rw [show (4 : ℝ) = 2 ^ 2 by norm_num, Real.sqrt_sq (by norm_num : (0 : ℝ) ≤ 2)]
  have hlb : (1.4 : ℝ) < Real.sqrt 2 :=
    (Real.lt_sqrt (by norm_num : (0 : ℝ) ≤ 1.4)).mpr (by norm_num)
  have hub : Real.sqrt 2 < 1.5 :=
    (Real.sqrt_lt' (by norm_num : (0 : ℝ) < 1.5)).mpr (by norm_num)
  have hds : (2 : ℝ) / Real.sqrt 2 = Real.sqrt 2 := Real.div_sqrt
  have hnds : (-2 : ℝ) / Real.sqrt 2 = -Real.sqrt 2 := by
    rw [neg_div, hds]
  refine claim_C9 true ⟨0, -1, 0⟩ ⟨-1, 0, 0⟩ ⟨1, 0, 0⟩ ⟨0, 1, 0⟩ ⟨0, 0, 1⟩ ?_ ?_ ?_ <;>
    unfold EdgeOK <;>
    refine ⟨?_, ?_, ?_⟩ <;>
    simp only [norm3, dot3, sub_x, sub_y, sub_z, mk_x, mk_y, mk_z] <;>
    norm_num [h4eq, hds, hnds] <;>
    nlinarith [hlb, hub]

/-- When the oriented volume `N` vanishes (coplanar observer), the clamped
solid angle is exactly `0`: for `D > 0` the arctangent vanishes, for `D = 0`
the model's `arctan2 0 0 = 0`, and for `D < 0` the raw value `2 pi` exceeds
the clamp threshold `6.2831853` and is replaced by `0`. -/
lemma solidAngleRow_eq_zero_of_N (R0 R1 R2 : Vec3) (r0 r1 r2 : ℝ)
    (hN : dot3 R2 (vcross3 R1 R0) = 0) :
    solidAngleRow R0 R1 R2 r0 r1 r2 = 0 := by
  rw [solidAngleRow_def, hN]
  set D := r0 * r1 * r2 + dot3 R2 R1 * r0 + dot3 R2 R0 * r1 + dot3 R1 R0 * r2 with hD
  rcases lt_trichotomy 0 D with hd | hd | hd
  · rw [arctan2_zero_of_pos hd]
    norm_num
  · rw [← hd, arctan2_zero_zero]
    norm_num
  · rw [arctan2_zero_of_neg hd]
    have habs : |2 * π| > 6.2831853 := by
      rw [abs_of_pos (by positivity)]
      exact two_pi_gt_threshold
    rw [if_pos habs]

/-- Claim C4 (amended): for an observer exactly in the triangle's plane the
returned contribution has zero component along the triangle's normal, for
either field kind. -/
theorem claim_C4_amended (bh : Bool) (obs v0 v1 v2 pol : Vec3)
    (hcop : dot3 (vcross3 (v1 - v0) (v2 - v0)) (obs - v0) = 0) :
    dot3 (norm_vector v0 v1 v2) (triangleFieldRow bh obs v0 v1 v2 pol) = 0 := by
  have hN : dot3 (v2 - obs) (vcross3 ((v1 - obs)) ((v0 - obs))) = 0 := by
    have hid : dot3 (v2 - obs) (vcross3 ((v1 - obs)) ((v0 - obs)))
        = dot3 (vcross3 (v1 - v0) (v2 - v0)) (obs - v0) := by
      unfold dot3 vcross3
      simp only [sub_x, sub_y, sub_z, mk_x, mk_y, mk_z]
      ring
    rw [hid, hcop]
  have hsa : solidAngleRow (v0 - obs) (v1 - obs) (v2 - obs)
      (norm3 (v0 - obs)) (norm3 (v1 - obs)) (norm3 (v2 - obs)) = 0 :=
    solidAngleRow_eq_zero_of_N _ _ _ _ _ _ hN
  unfold triangleFieldRow assembledRow
  rw [hsa]
  cases bh <;>
    · simp only [if_true, if_false, Bool.false_eq_true]
      simp only [dot3, vcross3, smul_x, smul_y, smul_z, add_x, add_y, add_z,
        sub_x, sub_y, sub_z, neg_x, neg_y, neg_z, mk_x, mk_y, mk_z]
      ring

/-- Witness for claim C4 (amended) at the concrete in-plane outside
observer of the counterexample. -/
theorem claim_C4_amended_witness :
    dot3 (norm_vector ⟨-1, 0, 0⟩ ⟨1, 0, 0⟩ ⟨0, 1, 0⟩)
      (triangleFieldRow true ⟨0, -1, 0⟩ ⟨-1, 0, 0⟩ ⟨1, 0, 0⟩ ⟨0, 1, 0⟩ ⟨0, 0, 1⟩) = 0 :=
  claim_C4_amended true ⟨0, -1, 0⟩ ⟨-1, 0, 0⟩ ⟨1, 0, 0⟩ ⟨0, 1, 0⟩ ⟨0, 0, 1⟩
    (by unfold dot3 vcross3; simp only [sub_x, sub_y, sub_z, mk_x, mk_y, mk_z]; norm_num)

/-- Claim C4 is false as stated: the observer `(0,-1,0)` lies exactly in the
plane of the triangle `(-1,0,0), (1,0,0), (0,1,0)` (all in the plane `z = 0`)
and strictly outside it (its `y` is below every vertex `y`), yet the returned
contribution is not the zero vector: its `y` component is
`-(2 - sqrt 2) * log (sqrt 2 + 1) / (4 pi) < 0`. -/
theorem claim_C4_counterexample :
    dot3 (vcross3 ((⟨1, 0, 0⟩ : Vec3) - ⟨-1, 0, 0⟩) ((⟨0, 1, 0⟩ : Vec3) - ⟨-1, 0, 0⟩))
        ((⟨0, -1, 0⟩ : Vec3) - ⟨-1, 0, 0⟩) = 0 ∧
    (⟨0, -1, 0⟩ : Vec3).y < (⟨-1, 0, 0⟩ : Vec3).y ∧
    (⟨0, -1, 0⟩ : Vec3).y < (⟨1, 0, 0⟩ : Vec3).y ∧
    (⟨0, -1, 0⟩ : Vec3).y < (⟨0, 1, 0⟩ : Vec3).y ∧
    triangleFieldRow true ⟨0, -1, 0⟩ ⟨-1, 0, 0⟩ ⟨1, 0, 0⟩ ⟨0, 1, 0⟩ ⟨0, 0, 1⟩ ≠ 0 := by
  have h4eq : Real.sqrt 4 = 2 := by
    rw [show (4 : ℝ) = 2 ^ 2 by norm_num, Real.sqrt_sq (by norm_num : (0 : ℝ) ≤ 2)]
  have hlb : (1.4 : ℝ) < Real.sqrt 2 :=
    (Real.lt_sqrt (by norm_num : (0 : ℝ) ≤ 1.4)).mpr (by norm_num)
  have hub : Real.sqrt 2 < 1.5 :=
    (Real.sqrt_lt' (by norm_num : (0 : ℝ) < 1.5)).mpr (by norm_num)
  have hs2 : Real.sqrt 2 * Real.sqrt 2 = 2 := Real.mul_self_sqrt (by norm_num)
  have hL : 0 < Real.log (Real.sqrt 2 + 1) := Real.log_pos (by nlinarith)
  have hplane : dot3 (vcross3 ((⟨1, 0, 0⟩ : Vec3) - ⟨-1, 0, 0⟩)
      ((⟨0, 1, 0⟩ : Vec3) - ⟨-1, 0, 0⟩)) ((⟨0, -1, 0⟩ : Vec3) - ⟨-1, 0, 0⟩) = 0 := by
    unfold dot3 vcross3
    simp only [sub_x, sub_y, sub_z, mk_x, mk_y, mk_z]
    norm_num
  refine ⟨hplane, by norm_num, by norm_num, by norm_num, ?_⟩
  -- the three edge kernels all reduce to multiples of log (sqrt 2 + 1)
  have hk0 : edgeKernel ⟨0, -1, 0⟩ ⟨-1, 0, 0⟩ ⟨1, 0, 0⟩ = Real.log (Real.sqrt 2 + 1) := by
    rw [edgeKernel_eval ⟨0, -1, 0⟩ ⟨-1, 0, 0⟩ ⟨1, 0, 0⟩ (by
      simp only [norm3, dot3, sub_x, sub_y, sub_z, mk_x, mk_y, mk_z]
      norm_num [h4eq]
      nlinarith)]
    simp only [norm3, dot3, sub_x, sub_y, sub_z, mk_x, mk_y, mk_z]
    norm_num [h4eq]
    rw [show Real.sqrt 2 + 2 + -1 = Real.sqrt 2 + 1 by ring]
    rw [show (Real.sqrt 2 + 1) / (Real.sqrt 2 + -1) = (Real.sqrt 2 + 1) ^ 2 by
      rw [div_eq_iff (by nlinarith : Real.sqrt 2 + -1 ≠ 0)]
      linear_combination (-(Real.sqrt 2 + 1)) * hs2]
    rw [Real.log_pow]
    push_cast
    ring
  have hk1 : edgeKernel ⟨0, -1, 0⟩ ⟨1, 0, 0⟩ ⟨0, 1, 0⟩
      = 1 / Real.sqrt 2 * Real.log (Real.sqrt 2 + 1) := by
    rw [edgeKernel_eval ⟨0, -1, 0⟩ ⟨1, 0, 0⟩ ⟨0, 1, 0⟩ (by
      simp only [norm3, dot3, sub_x, sub_y, sub_z, mk_x, mk_y, mk_z]
      norm_num
      nlinarith)]
    simp only [norm3, dot3, sub_x, sub_y, sub_z, mk_x, mk_y, mk_z]
    norm_num [h4eq]
    rw [show (2 + Real.sqrt 2) / Real.sqrt 2 = Real.sqrt 2 + 1 by
      rw [div_eq_iff (by positivity : Real.sqrt 2 ≠ 0)]
      linear_combination -hs2]
  have hk2 : edgeKernel ⟨0, -1, 0⟩ ⟨0, 1, 0⟩ ⟨-1, 0, 0⟩
      = 1 / Real.sqrt 2 * Real.log (Real.sqrt 2 + 1) := by
    rw [edgeKernel_eval ⟨0, -1, 0⟩ ⟨0, 1, 0⟩ ⟨-1, 0, 0⟩ (by
      simp only [norm3, dot3, sub_x, sub_y, sub_z, mk_x, mk_y, mk_z]
      norm_num [h4eq]
      rw [show (-2 : ℝ) / Real.sqrt 2 = -Real.sqrt 2 by
        rw [neg_div, Real.div_sqrt]]
      nlinarith)]
    simp only [norm3, dot3, sub_x, sub_y, sub_z, mk_x, mk_y, mk_z]
    norm_num [h4eq]
    rw [show (-2 : ℝ) / Real.sqrt 2 = -Real.sqrt 2 by rw [neg_div, Real.div_sqrt]]
    rw [show Real.sqrt 2 + Real.sqrt 2 + -Real.sqrt 2 = Real.sqrt 2 by ring]
    rw [show Real.sqrt 2 / (2 + -Real.sqrt 2) = Real.sqrt 2 + 1 by
      rw [div_eq_iff (by nlinarith : (2 : ℝ) + -Real.sqrt 2 ≠ 0)]
      linear_combination hs2]
  have hn : norm_vector ⟨-1, 0, 0⟩ ⟨1, 0, 0⟩ ⟨0, 1, 0⟩ = ⟨0, 0, 1⟩ := by
    unfold norm_vector
    rw [show vcross3 ((⟨1, 0, 0⟩ : Vec3) - ⟨-1, 0, 0⟩) ((⟨0, 1, 0⟩ : Vec3) - ⟨-1, 0, 0⟩)
        = ⟨0, 0, 2⟩ by
      unfold vcross3
      ext <;> simp only [sub_x, sub_y, sub_z, mk_x, mk_y, mk_z] <;> norm_num]
    rw [show norm3 ⟨0, 0, 2⟩ = 2 by
      unfold norm3 dot3
      simp only [mk_x, mk_y, mk_z]
      norm_num [h4eq]]
    ext <;> simp
  have hN : dot3 ((⟨0, 1, 0⟩ : Vec3) - ⟨0, -1, 0⟩)
      (vcross3 ((⟨1, 0, 0⟩ : Vec3) - ⟨0, -1, 0⟩) ((⟨-1, 0, 0⟩ : Vec3) - ⟨0, -1, 0⟩)) = 0 := by
    unfold dot3 vcross3
    simp only [sub_x, sub_y, sub_z, mk_x, mk_y, mk_z]
    norm_num
  have hsa : solidAngleRow ((⟨-1, 0, 0⟩ : Vec3) - ⟨0, -1, 0⟩) ((⟨1, 0, 0⟩ : Vec3) - ⟨0, -1, 0⟩)
      ((⟨0, 1, 0⟩ : Vec3) - ⟨0, -1, 0⟩) (norm3 ((⟨-1, 0, 0⟩ : Vec3) - ⟨0, -1, 0⟩))
      (norm3 ((⟨1, 0, 0⟩ : Vec3) - ⟨0, -1, 0⟩)) (norm3 ((⟨0, 1, 0⟩ : Vec3) - ⟨0, -1, 0⟩)) = 0 :=
    solidAngleRow_eq_zero_of_N _ _ _ _ _ _ hN
  intro heq
  have hy := congrArg Vec3.y heq
  unfold triangleFieldRow assembledRow at hy
  rw [hsa, hn, hk0, hk1, hk2] at hy
  simp only [if_true, dot3, vcross3, smul_x, smul_y, smul_z, add_x, add_y, add_z,
    sub_x, sub_y, sub_z, neg_x, neg_y, neg_z, mk_x, mk_y, mk_z, zero_x, zero_y, zero_z] at hy
  -- hy now asserts that a negative number is zero
  have hpi : 0 < π := Real.pi_pos
  have hfrac : 1 / Real.sqrt 2 < 1 := by
    rw [div_lt_one (by nlinarith)]
    nlinarith
  have h4pi : 0 < 1 / (4 * π) := by positivity
  nlinarith [hy, mul_pos h4pi (mul_pos (by nlinarith : (0 : ℝ) < 2 - 2 * (1 / Real.sqrt 2)) hL)]

/-- For a face whose oriented volume `N` is negative while `D = 0`, the row
solid angle is exactly `-pi` (the raw value, not clamped, since
`pi < 6.2831853`). -/
lemma solidAngleRow_eq_neg_pi (R0 R1 R2 : Vec3) (r0 r1 r2 : ℝ)
    (hN : dot3 R2 (vcross3 R1 R0) < 0)
    (hD : r0 * r1 * r2 + dot3 R2 R1 * r0 + dot3 R2 R0 * r1 + dot3 R1 R0 * r2 = 0) :
    solidAngleRow R0 R1 R2 r0 r1 r2 = -π := by
  rw [solidAngleRow_def, hD]
  have hval : arctan2 (dot3 R2 (vcross3 R1 R0)) 0 = -(π / 2) := by
    unfold arctan2
    simp [lt_irrefl, hN, not_lt_of_gt hN]
  rw [hval]
  have habs : ¬(|2 * -(π / 2)| > 6.2831853) := by
    rw [show (2 : ℝ) * -(π / 2) = -π by ring, abs_neg, abs_of_pos Real.pi_pos]
    push_neg
    exact pi_lt_threshold.le
  rw [if_neg habs]
  ring

/-- Concrete sanity check of the orientation convention behind claim C1: at
the centre of the regular tetrahedron with outward-wound faces, the four row
solid angles sum to `-(4 pi)` (each face subtends `-pi` there). -/
lemma tetrahedron_interior_solid_angle_sum :
    solidAngleRow ⟨1, -1, -1⟩ ⟨-1, -1, 1⟩ ⟨-1, 1, -1⟩
        (norm3 ⟨1, -1, -1⟩) (norm3 ⟨-1, -1, 1⟩) (norm3 ⟨-1, 1, -1⟩)
      + solidAngleRow ⟨1, 1, 1⟩ ⟨-1, 1, -1⟩ ⟨-1, -1, 1⟩
        (norm3 ⟨1, 1, 1⟩) (norm3 ⟨-1, 1, -1⟩) (norm3 ⟨-1, -1, 1⟩)
      + solidAngleRow ⟨1, 1, 1⟩ ⟨-1, -1, 1⟩ ⟨1, -1, -1⟩
        (norm3 ⟨1, 1, 1⟩) (norm3 ⟨-1, -1, 1⟩) (norm3 ⟨1, -1, -1⟩)
      + solidAngleRow ⟨1, 1, 1⟩ ⟨1, -1, -1⟩ ⟨-1, 1, -1⟩
        (norm3 ⟨1, 1, 1⟩) (norm3 ⟨1, -1, -1⟩) (norm3 ⟨-1, 1, -1⟩)
      = -(4 * π) := by
  have hs3 : Real.sqrt 3 * Real.sqrt 3 = 3 := Real.mul_self_sqrt (by norm_num)
  have hr : ∀ a b c : ℝ, a * a + b * b + c * c = 3 →
      norm3 ⟨a, b, c⟩ = Real.sqrt 3 := by
    intro a b c h
    unfold norm3 dot3
    simp only [mk_x, mk_y, mk_z]
    rw [h]
  have hrA : norm3 (⟨1, 1, 1⟩ : Vec3) = Real.sqrt 3 := hr 1 1 1 (by norm_num)
  have hrB : norm3 (⟨1, -1, -1⟩ : Vec3) = Real.sqrt 3 := hr 1 (-1) (-1) (by norm_num)
  have hrC : norm3 (⟨-1, 1, -1⟩ : Vec3) = Real.sqrt 3 := hr (-1) 1 (-1) (by norm_num)
  have hrD : norm3 (⟨-1, -1, 1⟩ : Vec3) = Real.sqrt 3 := hr (-1) (-1) 1 (by norm_num)
  rw [hrA, hrB, hrC, hrD]
  have hface : ∀ R0 R1 R2 : Vec3, dot3 R2 (vcross3 R1 R0) < 0 →
      dot3 R2 R1 = -1 → dot3 R2 R0 = -1 → dot3 R1 R0 = -1 →
      solidAngleRow R0 R1 R2 (Real.sqrt 3) (Real.sqrt 3) (Real.sqrt 3) = -π := by
    intro R0 R1 R2 hN d1 d2 d3
    refine solidAngleRow_eq_neg_pi R0 R1 R2 _ _ _ hN ?_
    rw [d1, d2, d3]
    linear_combination Real.sqrt 3 * hs3
  rw [hface ⟨1, -1, -1⟩ ⟨-1, -1, 1⟩ ⟨-1, 1, -1⟩
      (by unfold dot3 vcross3; simp only [mk_x, mk_y, mk_z]; norm_num)
      (by unfold dot3; simp only [mk_x, mk_y, mk_z]; norm_num)
      (by unfold dot3; simp only [mk_x, mk_y, mk_z]; norm_num)
      (by unfold dot3; simp only [mk_x, mk_y, mk_z]; norm_num),
    hface ⟨1, 1, 1⟩ ⟨-1, 1, -1⟩ ⟨-1, -1, 1⟩
      (by unfold dot3 vcross3; simp only [mk_x, mk_y, mk_z]; norm_num)
      (by unfold dot3; simp only [mk_x, mk_y, mk_z]; norm_num)
      (by unfold dot3; simp only [mk_x, mk_y, mk_z]; norm_num)
      (by unfold dot3; simp only [mk_x, mk_y, mk_z]; norm_num),
    hface ⟨1, 1, 1⟩ ⟨-1, -1, 1⟩ ⟨1, -1, -1⟩
      (by unfold dot3 vcross3; simp only [mk_x, mk_y, mk_z]; norm_num)
      (by unfold dot3; simp only [mk_x, mk_y, mk_z]; norm_num)
      (by unfold dot3; simp only [mk_x, mk_y, mk_z]; norm_num)
      (by unfold dot3; simp only [mk_x, mk_y, mk_z]; norm_num),
    hface ⟨1, 1, 1⟩ ⟨1, -1, -1⟩ ⟨-1, 1, -1⟩
      (by unfold dot3 vcross3; simp only [mk_x, mk_y, mk_z]; norm_num)
      (by unfold dot3; simp only [mk_x, mk_y, mk_z]; norm_num)
      (by unfold dot3; simp only [mk_x, mk_y, mk_z]; norm_num)
      (by unfold dot3; simp only [mk_x, mk_y, mk_z]; norm_num)]
  ring

/-- Witness for claim C10 at a concrete one-row batch. -/
theorem claim_C10_witness :
    triangleFieldRow true ⟨2, 0, 0⟩ ⟨0, 0, 0⟩ ⟨1, 0, 0⟩ ⟨0, 1, 0⟩
        ((2 : ℝ) • ⟨1, 0, 0⟩ + (3 : ℝ) • ⟨0, 1, 0⟩)
      = (2 : ℝ) • triangleFieldRow true ⟨2, 0, 0⟩ ⟨0, 0, 0⟩ ⟨1, 0, 0⟩ ⟨0, 1, 0⟩ ⟨1, 0, 0⟩
        + (3 : ℝ) • triangleFieldRow true ⟨2, 0, 0⟩ ⟨0, 0, 0⟩ ⟨1, 0, 0⟩ ⟨0, 1, 0⟩ ⟨0, 1, 0⟩ ∧
    (fun _ : Fin 1 => triangleFieldRow true ⟨9, 9, 9⟩ ⟨0, 0, 0⟩ ⟨1, 0, 0⟩ ⟨0, 1, 0⟩
        ((2 : ℝ) • ⟨1, 2, 3⟩ + (3 : ℝ) • ⟨4, 5, 6⟩)) (0 : Fin 1)
      = (2 : ℝ) • (fun _ : Fin 1 => triangleFieldRow true ⟨9, 9, 9⟩ ⟨0, 0, 0⟩ ⟨1, 0, 0⟩
          ⟨0, 1, 0⟩ ⟨1, 2, 3⟩) (0 : Fin 1)
        + (3 : ℝ) • (fun _ : Fin 1 => triangleFieldRow true ⟨9, 9, 9⟩ ⟨0, 0, 0⟩ ⟨1, 0, 0⟩
          ⟨0, 1, 0⟩ ⟨4, 5, 6⟩) (0 : Fin 1) :=
  claim_C10 true ⟨2, 0, 0⟩ ⟨0, 0, 0⟩ ⟨1, 0, 0⟩ ⟨0, 1, 0⟩ ⟨1, 0, 0⟩ ⟨0, 1, 0⟩ 2 3 "B"
    (fun _ : Fin 1 => (⟨9, 9, 9⟩ : Vec3)) (fun _ => (⟨0, 0, 0⟩, ⟨1, 0, 0⟩, ⟨0, 1, 0⟩))
    (fun _ => ⟨1, 2, 3⟩) (fun _ => ⟨4, 5, 6⟩) _ _ _ rfl rfl rfl 0

/-! Mesh-topology embedding for the `TriangularMesh` object class
(`class_magnet_TriangularMesh.py`).  Faces are triples of natural-number
vertex indices and vertices have rational coordinates; the mutable
validation caches of the Python object are threaded explicitly through a
state record, and a method call returns the new state, the warnings it
emitted and either a value or the message of the exception it raised
(mutations made before a raise persist, as in Python). -/

/-- Face of a mesh: ordered triple of vertex indices. -/
abbrev Face := ℕ × ℕ × ℕ

/-- Rational point, the vertex type of the mesh embedding. -/
abbrev Q3 := ℚ × ℚ × ℚ

/-- Directed edges of a face in winding order. -/
def faceDirEdges (f : Face) : List (ℕ × ℕ) :=
  [(f.1, f.2.1), (f.2.1, f.2.2), (f.2.2, f.1)]

/-- Modelled from the spec: `trimesh_is_closed` of
`magpylib._src.fields.field_BH_triangularmesh` (module not under `src/`).
A mesh is closed iff every undirected edge appears in exactly two faces,
once in each direction: every directed edge occurs exactly once and its
reverse also occurs exactly once. -/
def trimesh_is_closed (faces : List Face) : Bool :=
  let des := (faces.map faceDirEdges).flatten
  des.all fun e => des.count e == 1 && des.count (e.2, e.1) == 1

/-- Undirected edges of a face, as sorted index pairs. -/
def faceUEdges (f : Face) : List (ℕ × ℕ) :=
  (faceDirEdges f).map fun e => (min e.1 e.2, max e.1 e.2)

/-- Two faces are adjacent when they share an undirected edge. -/
def facesAdjacent (f g : Face) : Bool :=
  (faceUEdges f).any fun e => (faceUEdges g).contains e

/-- One closure step of the breadth-first component search: add every face
index adjacent to the current front. -/
def growComponent (faces : List Face) (cur : List ℕ) : List ℕ :=
  cur ++ ((List.range faces.length).filter fun i =>
    !cur.contains i &&
      cur.any fun j => facesAdjacent (faces.getD i (0, 0, 0)) (faces.getD j (0, 0, 0)))

/-- Iterated closure (fuelled breadth-first search). -/
def growComponentN : ℕ → List Face → List ℕ → List ℕ
  | 0, _, cur => cur
  | k + 1, faces, cur => growComponentN k faces (growComponent faces cur)

/-- Connected component (face indices) containing face `i`. -/
def componentOf (faces : List Face) (i : ℕ) : List ℕ :=
  growComponentN faces.length faces [i]

/-- Modelled from the spec: `get_disjoint_faces_subsets` (module not under
`src/`): the ordered partition of the face indices into connected components
of the face-adjacency relation, extracted by repeated breadth-first search. -/
def get_disjoint_faces_subsets (faces : List Face) : List (List ℕ) :=
  go faces.length (List.range faces.length)
where
  go : ℕ → List ℕ → List (List ℕ)
  | 0, _ => []
  | _, [] => []
  | k + 1, i :: rest =>
    let c := componentOf faces i
    (i :: rest).filter c.contains ::
      go k ((i :: rest).filter fun j => !c.contains j)

/-- Winding flip of a face: swap the last two vertex indices. -/
def swapFace (f : Face) : Face := (f.1, f.2.2, f.2.1)

/-- Directed edges of a face after an optional winding flip. -/
def faceDirEdgesFlip (f : Face) (b : Bool) : List (ℕ × ℕ) :=
  faceDirEdges (if b then swapFace f else f)

/-- An oriented neighbor `f` (with flip flag `bf`) forces a flip of `g`
exactly when the two traverse a shared edge in the same direction. -/
def forcesFlip (f : Face) (bf : Bool) (g : Face) : Bool :=
  (faceDirEdgesFlip f bf).any fun e => (faceDirEdges g).contains e

/-- One propagation step of the winding breadth-first search: every face
with an already-oriented adjacent face receives its flip flag from the
first such neighbor. -/
def stepAssign (faces : List Face) (flips : List (Option Bool)) : List (Option Bool) :=
  (List.range faces.length).map fun j =>
    match flips.getD j none with
    | some b => some b
    | none =>
      match (List.range faces.length).find? (fun i =>
          (flips.getD i none).isSome
            && facesAdjacent (faces.getD i (0, 0, 0)) (faces.getD j (0, 0, 0))) with
      | some i =>
        match flips.getD i none with
        | some bi => some (forcesFlip (faces.getD i (0, 0, 0)) bi (faces.getD j (0, 0, 0)))
        | none => none
      | none => none

/-- Seed the first unoriented face of a new component with an unflipped
orientation. -/
def seedFirst (flips : List (Option Bool)) : List (Option Bool) :=
  match flips.findIdx? Option.isNone with
  | some k => flips.set k (some false)
  | none => flips

/-- Fuelled saturation of `stepAssign`. -/
def saturateAssign (faces : List Face) : ℕ → List (Option Bool) → List (Option Bool)
  | 0, flips => flips
  | k + 1, flips => saturateAssign faces k (stepAssign faces flips)

/-- Fuelled full assignment: seed a component, saturate, repeat. -/
def assignAll (faces : List Face) : ℕ → List (Option Bool) → List (Option Bool)
  | 0, flips => flips
  | k + 1, flips =>
    if flips.all Option.isSome then flips
    else assignAll faces k (saturateAssign faces faces.length (seedFirst flips))

/-- Determinant of three rational points (six times the signed volume of the
tetrahedron they span with the origin). -/
def det3 (a b c : Q3) : ℚ :=
  a.1 * (b.2.1 * c.2.2 - b.2.2 * c.2.1)
    - a.2.1 * (b.1 * c.2.2 - b.2.2 * c.1)
    + a.2.2 * (b.1 * c.2.1 - b.2.1 * c.1)

/-- Signed-volume contribution of one face. -/
def faceVol (vertices : List Q3) (f : Face) : ℚ :=
  det3 (vertices.getD f.1 (0, 0, 0)) (vertices.getD f.2.1 (0, 0, 0))
    (vertices.getD f.2.2 (0, 0, 0))

/-- Face `i` with its propagated flip applied. -/
def appliedFace (faces : List Face) (flips : List Bool) (i : ℕ) : Face :=
  if flips.getD i false then swapFace (faces.getD i (0, 0, 0)) else faces.getD i (0, 0, 0)

/-- Global orientation test of one component: the consistently wound
component is inward when its total signed volume is negative, in which case
every face of the component is flipped. -/
def componentInward (vertices : List Q3) (faces : List Face) (flips : List Bool)
    (comp : List ℕ) : Bool :=
  decide ((comp.map fun i => faceVol vertices (appliedFace faces flips i)).sum < 0)

/-- Final flip flag of every face: breadth-first winding propagation
followed by the per-component global inward/outward correction. -/
def finalFlips (vertices : List Q3) (faces : List Face) : List Bool :=
  let prop := (assignAll faces faces.length
    (List.replicate faces.length none)).map fun o => o.getD false
  let comps := get_disjoint_faces_subsets faces
  (List.range faces.length).map fun i =>
    match comps.find? fun c => c.contains i with
    | some comp =>
      if componentInward vertices faces prop comp then !(prop.getD i false)
      else prop.getD i false
    | none => prop.getD i false

/-- Modelled from the spec: `fix_trimesh_orientation` (module not under
`src/`), following spec section 4.6: propagate consistent winding across
adjacent faces by breadth-first search, flipping a neighbor (swapping two
of its indices) when it traverses a shared edge in the same direction, then
flip whole components whose consistent winding is inward (signed-volume
point-containment test, an admissible choice per the spec's design notes).
Every output face is the corresponding input face with at most one swap of
two indices applied. -/
def fix_trimesh_orientation (vertices : List Q3) (faces : List Face) : List Face :=
  (List.range faces.length).map fun i =>
    if (finalFlips vertices faces).getD i false then swapFace (faces.getD i (0, 0, 0))
    else faces.getD i (0, 0, 0)

/-- State of a `TriangularMesh` object: the `_vertices`, `_faces`,
`_is_closed`, `_is_connected`, `_is_reoriented` and `_faces_subsets`
attributes. -/
structure TriMesh where
  vertices : List Q3
  faces : List Face
  isClosedCache : Option Bool
  isConnectedCache : Option Bool
  isReoriented : Bool
  facesSubsetsCache : Option (List (List ℕ))

/-- State created by `__init__` (source lines 111-115): caches start at
`None` (`unknown`) and `_is_reoriented` at `False`, before any validation
step that the constructor flags may subsequently trigger. -/
def mkTriMesh (vertices : List Q3) (faces : List Face) : TriMesh :=
  ⟨vertices, faces, none, none, false, none⟩

/-- Accepted values of the `errors` argument
(`TriangularMesh._validate_error_arg`, source lines 145-153). -/
def validModes : List String := ["warn", "raise", "ignore"]

/-- Message of the `ValueError` raised on an invalid `errors` argument. -/
def valueErrorMsg : String := "ValueError: the errors argument must be one of warn, raise, ignore"

/-- Open-mesh diagnostic message (abridged). -/
def openMeshMsg : String := "Mesh is open. Field calculation may deliver erroneous results."

/-- Disjoint-mesh diagnostic message (abridged). -/
def disjointMsg : String := "Mesh is disjoint."

/-- Warning emitted when reorienting before the closedness check. -/
def reorientWarnMsg : String :=
  "Mesh has not been checked if it is closed before performing faces reorientation"

/-- Python `str` of a boolean. -/
def pyBool : Bool → String
  | true => "True"
  | false => "False"

/-- `TriangularMesh.is_closed` (source lines 155-202): validate the mode,
compute and cache the closedness on first use, and on a freshly computed
`False` warn or raise according to the mode. -/
def is_closed (errors : String) (s : TriMesh) :
    TriMesh × List String × Except String Bool :=
  if !validModes.contains errors then (s, [], Except.error valueErrorMsg)
  else match s.isClosedCache with
  | some b => (s, [], Except.ok b)
  | none =>
    let b := trimesh_is_closed s.faces
    let s' := { s with isClosedCache := some b }
    if b then (s', [], Except.ok true)
    else if errors = "warn" then (s', [openMeshMsg], Except.ok false)
    else if errors = "raise" then (s', [], Except.error openMeshMsg)
    else (s', [], Except.ok false)

/-- `TriangularMesh.get_faces_subsets` (source lines 258-262). -/
def get_faces_subsets (s : TriMesh) : List (List ℕ) × TriMesh :=
  match s.facesSubsetsCache with
  | some l => (l, s)
  | none =>
    let l := get_disjoint_faces_subsets s.faces
    (l, { s with facesSubsetsCache := some l })

/-- `TriangularMesh.is_connected` (source lines 208-256): connectedness is
one face-subset component, cached, with the same mode handling. -/
def is_connected (errors : String) (s : TriMesh) :
    TriMesh × List String × Except String Bool :=
  if !validModes.contains errors then (s, [], Except.error valueErrorMsg)
  else match s.isConnectedCache with
  | some b => (s, [], Except.ok b)
  | none =>
    let p := get_faces_subsets s
    let b := p.1.length == 1
    let s' := { p.2 with isConnectedCache := some b }
    if b then (s', [], Except.ok true)
    else if errors = "warn" then (s', [disjointMsg], Except.ok false)
    else if errors = "raise" then (s', [], Except.error disjointMsg)
    else (s', [], Except.ok false)

/-- `TriangularMesh.is_reoriented` (source lines 204-206). -/
def is_reoriented (s : TriMesh) : Bool := s.isReoriented

/-- `TriangularMesh.mesh_status` (source lines 264-273): the three tri-state
flags as strings, `Unchecked` standing for an unset cache. -/
def mesh_status (s : TriMesh) : String × String × String :=
  ((match s.isClosedCache with | none => "Unchecked" | some b => pyBool b),
    (match s.isConnectedCache with | none => "Unchecked" | some b => pyBool b),
    pyBool s.isReoriented)

/-- `TriangularMesh.reorient_faces` (source lines 321-333): when closedness
has not been checked, warn and trigger the check with the given mode (a
raise there aborts the call, with the cache mutations persisting); then
replace the faces by their reorientation and set `_is_reoriented`. -/
def reorient_faces (errors : String) (s : TriMesh) :
    TriMesh × List String × Except String Unit :=
  match s.isClosedCache with
  | some _ =>
    ({ s with faces := fix_trimesh_orientation s.vertices s.faces, isReoriented := true },
      [], Except.ok ())
  | none =>
    let r := is_closed errors s
    match r.2.2 with
    | Except.error e => (r.1, reorientWarnMsg :: r.2.1, Except.error e)
    | Except.ok _ =>
      let s2 := r.1
      ({ s2 with faces := fix_trimesh_orientation s2.vertices s2.faces, isReoriented := true },
        reorientWarnMsg :: r.2.1, Except.ok ())

/-- Shape of the reorientation output: same length, each face kept or
winding-swapped. -/
lemma fix_trimesh_orientation_spec (vertices : List Q3) (faces : List Face) :
    (fix_trimesh_orientation vertices faces).length = faces.length ∧
    ∀ i, i < faces.length →
      (fix_trimesh_orientation vertices faces).getD i (0, 0, 0) = faces.getD i (0, 0, 0) ∨
      (fix_trimesh_orientation vertices faces).getD i (0, 0, 0)
        = swapFace (faces.getD i (0, 0, 0)) := by
  constructor
  · simp [fix_trimesh_orientation]
  · intro i hi
    have hmap : (fix_trimesh_orientation vertices faces).getD i (0, 0, 0)
        = (if (finalFlips vertices faces).getD i false then swapFace (faces.getD i (0, 0, 0))
          else faces.getD i (0, 0, 0)) := by
      unfold fix_trimesh_orientation
      rw [List.getD_eq_getElem?_getD, List.getElem?_map, List.getElem?_range hi]
      rfl
    rw [hmap]
    by_cases hb : (finalFlips vertices faces).getD i false
    · right
      rw [if_pos hb]
    · left
      rw [if_neg hb]

/-- Outcome of `is_closed` in warn mode on an unchecked mesh. -/
lemma is_closed_warn_result (s : TriMesh) (hc : s.isClosedCache = none) :
    is_closed "warn" s
      = ({ s with isClosedCache := some (trimesh_is_closed s.faces) },
        if trimesh_is_closed s.faces then [] else [openMeshMsg],
        Except.ok (trimesh_is_closed s.faces)) := by
  unfold is_closed
  rw [hc]
  have hv : validModes.contains "warn" = true := rfl
  rw [hv]
  cases hb : trimesh_is_closed s.faces <;> simp [hb]

/-- A valid-mode call on a cached flag returns it silently. -/
lemma is_closed_cached (m : String) (s : TriMesh) (b : Bool)
    (hm : validModes.contains m = true) (hc : s.isClosedCache = some b) :
    is_closed m s = (s, [], Except.ok b) := by
  unfold is_closed
  rw [hm, hc]
  rfl

/-- A call to `is_closed` that returns a boolean leaves the flag cached with
that boolean. -/
lemma is_closed_ok_cache (m : String) (s s1 : TriMesh) (w1 : List String) (b1 : Bool)
    (h : is_closed m s = (s1, w1, Except.ok b1)) : s1.isClosedCache = some b1 := by
  unfold is_closed at h
  by_cases hv : validModes.contains m = true
  · rw [hv] at h
    simp only [Bool.not_true, Bool.false_eq_true, if_false] at h
    cases hc : s.isClosedCache with
    | some b =>
      rw [hc] at h
      simp only [Prod.mk.injEq, Except.ok.injEq] at h
      rw [← h.1, hc, h.2.2]
    | none =>
      rw [hc] at h
      cases hb : trimesh_is_closed s.faces
      · rw [hb] at h
        simp only [Bool.false_eq_true, if_false] at h
        by_cases hw : m = "warn"
        · rw [if_pos hw] at h
          simp only [Prod.mk.injEq, Except.ok.injEq] at h
          rw [← h.1, ← h.2.2]
        · rw [if_neg hw] at h
          by_cases hr : m = "raise"
          · rw [if_pos hr] at h
            simp at h
          · rw [if_neg hr] at h
            simp only [Prod.mk.injEq, Except.ok.injEq] at h
            rw [← h.1, ← h.2.2]
      · rw [hb] at h
        simp only [if_true] at h
        simp only [Prod.mk.injEq, Except.ok.injEq] at h
        rw [← h.1, ← h.2.2]
  · simp only [Bool.not_eq_true] at hv
    rw [hv] at h
    simp at h

/-- Outcome of `is_connected` in a valid mode on a cached flag. -/
lemma is_connected_cached (m : String) (s : TriMesh) (b : Bool)
    (hm : validModes.contains m = true) (hc : s.isConnectedCache = some b) :
    is_connected m s = (s, [], Except.ok b) := by
  unfold is_connected
  rw [hm, hc]
  rfl

/-- A call to `is_connected` that returns a boolean leaves the flag cached
with that boolean. -/
lemma is_connected_ok_cache (m : String) (s s1 : TriMesh) (w1 : List String) (b1 : Bool)
    (h : is_connected m s = (s1, w1, Except.ok b1)) : s1.isConnectedCache = some b1 := by
  unfold is_connected at h
  by_cases hv : validModes.contains m = true
  · rw [hv] at h
    simp only [Bool.not_true, Bool.false_eq_true, if_false] at h
    cases hc : s.isConnectedCache with
    | some b =>
      rw [hc] at h
      simp only [Prod.mk.injEq, Except.ok.injEq] at h
      rw [← h.1, hc, h.2.2]
    | none =>
      rw [hc] at h
      cases hb : (get_faces_subsets s).1.length == 1
      · simp only [hb, Bool.false_eq_true, if_false] at h
        by_cases hw : m = "warn"
        · rw [if_pos hw] at h
          simp only [Prod.mk.injEq, Except.ok.injEq] at h
          rw [← h.1, ← h.2.2]
        · rw [if_neg hw] at h
          by_cases hr : m = "raise"
          · rw [if_pos hr] at h
            simp at h
          · rw [if_neg hr] at h
            simp only [Prod.mk.injEq, Except.ok.injEq] at h
            rw [← h.1, ← h.2.2]
      · simp only [hb, if_true] at h
        simp only [Prod.mk.injEq, Except.ok.injEq] at h
        rw [← h.1, ← h.2.2]
  · simp only [Bool.not_eq_true] at hv
    rw [hv] at h
    simp at h

/-- Claim C6 is false as stated: on an open mesh whose closedness is already
cached (here by a preceding warn-mode call), a call with mode `raise`
returns `False` silently instead of raising a `ValueError`. -/
theorem claim_C6_counterexample :
    trimesh_is_closed [((0 : ℕ), (1 : ℕ), (2 : ℕ))] = false ∧
    is_closed "raise" ((is_closed "warn" (mkTriMesh [] [(0, 1, 2)])).1)
      = ((is_closed "warn" (mkTriMesh [] [(0, 1, 2)])).1, [], Except.ok false) := by
  exact ⟨rfl, rfl⟩

/-- Claim C6 (amended): on an open mesh, every `is_closed` call returns
`False`; the warning (mode `warn`) or `ValueError` (mode `raise`) happens
only on the call that first computes and caches the result, later calls
return the cached `False` silently; an invalid mode always raises a
`ValueError`, whatever the mesh. -/
theorem claim_C6_amended (s : TriMesh) (hopen : trimesh_is_closed s.faces = false) :
    (s.isClosedCache = none →
      is_closed "warn" s
        = ({ s with isClosedCache := some false }, [openMeshMsg], Except.ok false) ∧
      is_closed "raise" s
        = ({ s with isClosedCache := some false }, [], Except.error openMeshMsg) ∧
      is_closed "ignore" s
        = ({ s with isClosedCache := some false }, [], Except.ok false)) ∧
    (s.isClosedCache = some false → ∀ m, validModes.contains m = true →
      is_closed m s = (s, [], Except.ok false)) ∧
    (∀ m, validModes.contains m = false →
      is_closed m s = (s, [], Except.error valueErrorMsg)) := by
  refine ⟨?_, ?_, ?_⟩
  · intro hc
    refine ⟨?_, ?_, ?_⟩ <;>
      · unfold is_closed
        rw [hc, hopen]
        rfl
  · intro hc m hm
    exact is_closed_cached m s false hm hc
  · intro m hm
    unfold is_closed
    rw [hm]
    rfl

/-- Witness for claim C6 (amended) on a concrete one-face open mesh, in both
cache states and with an invalid mode. -/
theorem claim_C6_amended_witness :
    is_closed "raise" (mkTriMesh [] [(0, 1, 2)])
      = ({ mkTriMesh [] [(0, 1, 2)] with isClosedCache := some false }, [],
        Except.error openMeshMsg) ∧
    is_closed "boom" (mkTriMesh [] [(0, 1, 2)])
      = (mkTriMesh [] [(0, 1, 2)], [], Except.error valueErrorMsg) := by
  have h := claim_C6_amended (mkTriMesh [] [(0, 1, 2)]) rfl
  exact ⟨(h.1 rfl).2.1, h.2.2 "boom" rfl⟩

/-- Claim C7: `reorient_faces` (default warn mode) only rewinds faces: the
vertex list is untouched, every face keeps its three indices up to one swap,
the reoriented flag is set, the call returns normally, and on a mesh whose
closedness was never checked it emits a warning and triggers the check. -/
theorem claim_C7 (s s' : TriMesh) (warns : List String) (r : Except String Unit)
    (h : reorient_faces "warn" s = (s', warns, r)) :
    s'.vertices = s.vertices ∧
    s'.faces.length = s.faces.length ∧
    (∀ i, i < s.faces.length →
      s'.faces.getD i (0, 0, 0) = s.faces.getD i (0, 0, 0) ∨
      s'.faces.getD i (0, 0, 0) = swapFace (s.faces.getD i (0, 0, 0))) ∧
    is_reoriented s' = true ∧
    r = Except.ok () ∧
    (s.isClosedCache = none → warns ≠ [] ∧ s'.isClosedCache ≠ none) := by
  obtain ⟨hlen, hshape⟩ := fix_trimesh_orientation_spec s.vertices s.faces
  unfold reorient_faces at h
  cases hc : s.isClosedCache with
  | some b =>
    rw [hc] at h
    simp only [Prod.mk.injEq] at h
    obtain ⟨h1, h2, h3⟩ := h
    rw [← h1, ← h3]
    refine ⟨rfl, hlen, hshape, rfl, rfl, ?_⟩
    intro hcn
    exact absurd hcn (by simp)
  | none =>
    rw [hc] at h
    rw [is_closed_warn_result s hc] at h
    simp only [Prod.mk.injEq] at h
    obtain ⟨h1, h2, h3⟩ := h
    rw [← h1, ← h2, ← h3]
    exact ⟨rfl, hlen, hshape, rfl, rfl, fun _ => ⟨by simp, by simp⟩⟩

/-- Witness for claim C7 on a concrete unchecked one-face mesh. -/
theorem claim_C7_witness :
    (reorient_faces "warn" (mkTriMesh [] [(0, 1, 2)])).1.vertices
        = (mkTriMesh [] [(0, 1, 2)]).vertices ∧
    is_reoriented (reorient_faces "warn" (mkTriMesh [] [(0, 1, 2)])).1 = true ∧
    (reorient_faces "warn" (mkTriMesh [] [(0, 1, 2)])).2.1 ≠ [] ∧
    (reorient_faces "warn" (mkTriMesh [] [(0, 1, 2)])).1.isClosedCache ≠ none := by
  have h := claim_C7 (mkTriMesh [] [(0, 1, 2)])
    (reorient_faces "warn" (mkTriMesh [] [(0, 1, 2)])).1
    (reorient_faces "warn" (mkTriMesh [] [(0, 1, 2)])).2.1
    (reorient_faces "warn" (mkTriMesh [] [(0, 1, 2)])).2.2 rfl
  exact ⟨h.1, h.2.2.2.1, (h.2.2.2.2.2 rfl).1, (h.2.2.2.2.2 rfl).2⟩

/-- Claim C8: the validation flags of a freshly initialized mesh are unknown
(`mesh_status` reports `Unchecked`), and each of `is_closed` and
`is_connected` computes at most once: after a first call returning a
boolean, a second call in any valid mode returns the same boolean, emits
nothing, raises nothing and leaves the state (hence the cached flags)
unchanged. -/
theorem claim_C8 (vs : List Q3) (fs : List Face) (s : TriMesh) (m1 m2 : String)
    (_hm1 : validModes.contains m1 = true) (hm2 : validModes.contains m2 = true) :
    mesh_status (mkTriMesh vs fs) = ("Unchecked", "Unchecked", "False") ∧
    (∀ b1 s1 w1, is_closed m1 s = (s1, w1, Except.ok b1) →
      is_closed m2 s1 = (s1, [], Except.ok b1)) ∧
    (∀ b1 s1 w1, is_connected m1 s = (s1, w1, Except.ok b1) →
      is_connected m2 s1 = (s1, [], Except.ok b1)) := by
  refine ⟨rfl, ?_, ?_⟩
  · intro b1 s1 w1 h
    exact is_closed_cached m2 s1 b1 hm2 (is_closed_ok_cache m1 s s1 w1 b1 h)
  · intro b1 s1 w1 h
    exact is_connected_cached m2 s1 b1 hm2 (is_connected_ok_cache m1 s s1 w1 b1 h)

/-- Witness for claim C8 on a concrete one-face open mesh: warn-mode first
calls, then raise-mode second calls. -/
theorem claim_C8_witness :
    mesh_status (mkTriMesh [] [((0 : ℕ), (1 : ℕ), (2 : ℕ))])
      = ("Unchecked", "Unchecked", "False") ∧
    is_closed "raise" ((is_closed "warn" (mkTriMesh [] [(0, 1, 2)])).1)
      = ((is_closed "warn" (mkTriMesh [] [(0, 1, 2)])).1, [], Except.ok false) ∧
    is_connected "raise" ((is_connected "warn" (mkTriMesh [] [(0, 1, 2)])).1)
      = ((is_connected "warn" (mkTriMesh [] [(0, 1, 2)])).1, [], Except.ok true) := by
  have h := claim_C8 [] [(0, 1, 2)] (mkTriMesh [] [(0, 1, 2)]) "warn" "raise" rfl rfl
  exact ⟨h.1, h.2.1 false _ _ rfl, h.2.2 true _ _ rfl⟩

end Magpylib
